import Mathlib

/-!
Verification of the epoch-manager core of `witnet-rust`
(`src/core/src/actors/epoch_manager/mod.rs`).

The Rust code is shallowly embedded: machine integers become `Int`/`Nat`
with explicit wrapping and truncation where the Rust semantics wraps or
truncates (release-mode two's-complement behaviour), checked arithmetic
becomes `Option`, and fallible functions return `Except EpochManagerError`.
The `Epoch` type of the Rust code is `u32`; timestamps are `i64`; the
checkpoint period is `u16`.
-/

namespace WitnetEpoch

/-- Rust constant `u32::MAX`. -/
def u32Max : Nat := 4294967295

/-- Rust constant `u16::MAX`. -/
def u16Max : Nat := 65535

/-- Two's-complement range of `i64`: `-(2^63) ≤ x < 2^63`. -/
def inI64 (x : Int) : Prop := -(9223372036854775808 : Int) ≤ x ∧ x < 9223372036854775808

instance (x : Int) : Decidable (inI64 x) := by unfold inI64; infer_instance

/-- Wrap an integer into `i64` two's-complement range, the result of Rust
release-mode `i64` arithmetic. -/
def wrapI64 (x : Int) : Int :=
  (x + 9223372036854775808) % 18446744073709551616 - 9223372036854775808

/-- The Rust cast `x as u32` on an `i64` value: keep the low 32 bits of the
two's-complement representation. -/
def toU32 (x : Int) : Nat := (x % 4294967296).toNat

/-- Rust `u32::checked_mul`: `none` when the product exceeds `u32::MAX`. -/
def checked_mul_u32 (a b : Nat) : Option Nat :=
  if a * b ≤ u32Max then some (a * b) else none

/-- Rust `u32::checked_add`: `none` when the sum exceeds `u32::MAX`. -/
def checked_add_u32 (a b : Nat) : Option Nat :=
  if a + b ≤ u32Max then some (a + b) else none

/-- Rust `i64::checked_add`: `none` when the sum leaves the `i64` range. -/
def checked_add_i64 (a b : Int) : Option Int :=
  if inI64 (a + b) then some (a + b) else none

/-- Errors `EpochManagerError` from the Rust source (the commented-out
`UnknownTimestamp` variant is omitted, as in the source). -/
inductive EpochManagerError where
  /-- Epoch zero time is unknown -/
  | UnknownEpochZero
  /-- Checkpoint period is unknown -/
  | UnknownCheckpointPeriod
  /-- Checkpoint zero is in the future -/
  | CheckpointZeroInTheFuture (zero : Int)
  /-- Overflow when calculating the epoch timestamp -/
  | Overflow
  deriving DecidableEq, Repr

/-- The configuration fields of the Rust `EpochManager` struct.  The struct's
remaining fields (`subscriptions_epoch`, `subscriptions_all`,
`last_checked_epoch`) are generic over subscription payloads and are modelled
separately in `MonitorState` below; the clock methods read only these two. -/
structure EpochManager where
  /-- Timestamp of checkpoint #0 (`Option<i64>`). -/
  checkpoint_zero_timestamp : Option Int
  /-- Period between checkpoints in seconds (`Option<u16>`); the stored
  `Nat` is the `u16` value. -/
  checkpoints_period : Option Nat
  deriving DecidableEq, Repr

/-- Rust `EpochManager::set_checkpoint_zero`. -/
def set_checkpoint_zero (st : EpochManager) (timestamp : Int) : EpochManager :=
  { st with checkpoint_zero_timestamp := some timestamp }

/-- Rust `EpochManager::set_period`: a period of `0` is clamped to `1` (the Rust
code logs a warning, a side effect outside the embedding). -/
def set_period (st : EpochManager) (period : Nat) : EpochManager :=
  let period := if period = 0 then 1 else period
  { st with checkpoints_period := some period }

/-- Rust `EpochManager::epoch_at`.  `elapsed` is the wrapped `i64` difference
`timestamp - zero`; `elapsed as Epoch` truncates to the low 32 bits.  The
division is `Nat` division; in Rust a stored period of `0` would panic here,
but `set_period` never stores `0` (`Nat` division by `0` yields `0`). -/
def epoch_at (st : EpochManager) (timestamp : Int) : Except EpochManagerError Nat :=
  match st.checkpoint_zero_timestamp, st.checkpoints_period with
  | some zero, some period =>
      let elapsed := wrapI64 (timestamp - zero)
      if elapsed < 0 then
        .error (.CheckpointZeroInTheFuture zero)
      else
        .ok (toU32 elapsed / period)
  | none, _ => .error .UnknownEpochZero
  | some _, none => .error .UnknownCheckpointPeriod

/-- Rust `EpochManager::epoch_timestamp`: `period * epoch + zero` via
`u32::checked_mul`, a (vacuous) filter `x <= Epoch::max_value()`, the
lossless cast `i64::from`, and `i64::checked_add`; `None` becomes
`Overflow`. -/
def epoch_timestamp (st : EpochManager) (epoch : Nat) : Except EpochManagerError Int :=
  match st.checkpoint_zero_timestamp, st.checkpoints_period with
  | some zero, some period =>
      match ((checked_mul_u32 period epoch).filter
              (fun x => decide (x ≤ u32Max))).bind
            (fun x => checked_add_i64 (Int.ofNat x) zero) with
      | some v => .ok v
      | none => .error .Overflow
  | none, _ => .error .UnknownEpochZero
  | some _, none => .error .UnknownCheckpointPeriod

/-- Rust `std::time::Duration` as a total count of nanoseconds;
`Duration::new(s, n)` denotes `s * 10^9 + n` nanoseconds (it normalizes the
carry internally). -/
def durationNew (secs nanos : Nat) : Nat := secs * 1000000000 + nanos

/-- Rust `EpochManager::time_to_next_checkpoint`, with the time source
`get_timestamp_nanos()` passed in as `(now_secs, now_nanos)`
(`now_nanos < 10^9` in Rust, being a subsecond remainder). -/
def time_to_next_checkpoint (st : EpochManager) (now_secs : Int) (now_nanos : Nat) :
    Except EpochManagerError Nat := do
  let current_epoch ← epoch_at st now_secs
  let next_epoch ← match checked_add_u32 current_epoch 1 with
    | some e => Except.ok e
    | none => Except.error EpochManagerError.Overflow
  let next_checkpoint ← epoch_timestamp st next_epoch
  let secs := wrapI64 (next_checkpoint - now_secs)
  if secs < 0 then
    .error .Overflow
  else
    .ok (durationNew secs.toNat (1000000000 - now_nanos))

/-- Message `EpochNotification<T>` from `actors/messages`: the message delivered to a
subscriber. -/
structure EpochNotification (α : Type) where
  /-- The epoch (checkpoint) the notification is for. -/
  checkpoint : Nat
  /-- The payload carried to the subscriber. -/
  payload : α
  deriving DecidableEq, Repr

/-- Struct `SingleEpochSubscription<T>`: the one-shot subscription.  The actix
`Recipient` is not modelled; delivery is modelled as the produced message
(the Rust code ignores the `do_send` result either way). -/
structure SingleEpochSubscription (α : Type) where
  /-- Payload to be sent back to the subscriber actor; `take`n on delivery. -/
  payload : Option α
  deriving DecidableEq, Repr

/-- Rust `SingleEpochSubscription::send_notification`: `self.payload.take()`
either yields a payload, producing an `EpochNotification` message, or the
payload was already consumed and nothing is sent (the Rust code logs an
error).  Returns the mutated subscription and the optional message. -/
def send_notification (sub : SingleEpochSubscription α) (epoch : Nat) :
    SingleEpochSubscription α × Option (EpochNotification α) :=
  match sub.payload with
  | some p => (⟨none⟩, some ⟨epoch, p⟩)
  | none => (⟨none⟩, none)

/-- Repeated calls of `send_notification` on the same subscription over its
lifetime, collecting every message actually produced. -/
def send_many (sub : SingleEpochSubscription α) : List Nat → SingleEpochSubscription α × List (EpochNotification α)
  | [] => (sub, [])
  | e :: es =>
      let (sub1, m) := send_notification sub e
      let (sub2, ms) := send_many sub1 es
      (sub2, m.toList ++ ms)

/-- The monitor-relevant state of the `EpochManager` actor:
`subscriptions_epoch` is the `BTreeMap<Epoch, Vec<Box<dyn SendableNotification>>>`,
modelled as an association list whose invariant (strictly ascending keys) is
carried as a hypothesis where needed, plus `last_checked_epoch`. -/
structure MonitorState (α : Type) where
  /-- Subscriptions to a particular epoch, keyed by epoch. -/
  subscriptions_epoch : List (Nat × List (SingleEpochSubscription α))
  /-- Last epoch that was checked by the epoch monitor process. -/
  last_checked_epoch : Option Nat
  deriving DecidableEq, Repr

/-- Rust `BTreeMap::remove`: drop the (unique) entry with key `k`, returning its
value and the remaining map. -/
def btree_remove (k : Nat) :
    List (Nat × List (SingleEpochSubscription α)) →
    Option (List (SingleEpochSubscription α)) × List (Nat × List (SingleEpochSubscription α))
  | [] => (none, [])
  | (k', v) :: rest =>
      if k' = k then (some v, rest)
      else
        let (r, rest') := btree_remove k rest
        (r, (k', v) :: rest')

/-- Whether a map entry's key lies in the inclusive range `[l, c]`. -/
def inRangeB (l c : Nat) (kv : Nat × List (SingleEpochSubscription α)) : Bool :=
  decide (l ≤ kv.1) && decide (kv.1 ≤ c)

/-- Rust `BTreeMap::range(l..=c)` key collection: on a map whose entries are in
ascending key order this is the (order-preserving) filter of the keys lying
in the inclusive range.  (Rust panics when `l > c`; the monitor theorems
assume `l ≤ c`, which holds whenever wall-clock time does not go
backwards.) -/
def range_keys (subs : List (Nat × List (SingleEpochSubscription α))) (l c : Nat) : List Nat :=
  (subs.filter (inRangeB l c)).map Prod.fst

/-- The `for checkpoint in epoch_checkpoints` loop of
`EpochManager::checkpoint_monitor`: remove each listed checkpoint from the
map and send a notification to each of its subscribers, collecting the
messages in delivery order. -/
def fire_loop :
    List Nat → List (Nat × List (SingleEpochSubscription α)) →
    List (Nat × List (SingleEpochSubscription α)) × List (EpochNotification α)
  | [], subs => (subs, [])
  | k :: ks, subs =>
      match btree_remove k subs with
      | (some entry, subs') =>
          let msgs := entry.filterMap (fun s => (send_notification s k).2)
          let (subs'', rest) := fire_loop ks subs'
          (subs'', msgs ++ rest)
      | (none, subs') => fire_loop ks subs'

/-- The body of the `checkpoint_monitor` closure restricted to single-epoch
subscriptions (source lines 170–193): collect the keys in
`[last_checked_epoch.unwrap_or(0), current_epoch]`, deliver and remove those
entries, and set `last_checked_epoch = Some(current_epoch)`.  (The preceding
loop over `subscriptions_all` touches neither `subscriptions_epoch` nor
`last_checked_epoch`.)  Returns the new state and the messages sent. -/
def checkpoint_monitor_fire (st : MonitorState α) (current_epoch : Nat) :
    MonitorState α × List (EpochNotification α) :=
  let epoch_checkpoints := range_keys st.subscriptions_epoch
    (st.last_checked_epoch.getD 0) current_epoch
  let (subs', msgs) := fire_loop epoch_checkpoints st.subscriptions_epoch
  (⟨subs', some current_epoch⟩, msgs)

/-- The messages produced when one map entry's subscription list is drained
(the inner `for mut subscription in subscriptions` loop of the monitor). -/
def deliveries (kv : Nat × List (SingleEpochSubscription α)) : List (EpochNotification α) :=
  kv.2.filterMap (fun s => (send_notification s kv.1).2)

/-! Concrete sanity checks, including the concrete scenarios of the spec. -/

example : epoch_at ⟨some 1000, some 10⟩ 1025 = .ok 2 := rfl
example : epoch_timestamp ⟨some 1000, some 10⟩ 2 = .ok 1020 := rfl
example : epoch_timestamp ⟨some 1000, some 10⟩ 3 = .ok 1030 := rfl
example : epoch_at ⟨some 1000, some 10⟩ 500 =
    .error (.CheckpointZeroInTheFuture 1000) := rfl
example : epoch_at ⟨some 0, some 2⟩ 4294967296 = .ok 0 := rfl
example : epoch_at ⟨some 0, some 1⟩ 4294967295 = .ok 4294967295 := rfl
example : time_to_next_checkpoint ⟨some 1000, some 10⟩ 1025 5 =
    .ok (durationNew 5 999999995) := rfl
example : time_to_next_checkpoint ⟨some 1000, some 10⟩ 500 0 =
    .error (.CheckpointZeroInTheFuture 1000) := rfl

example :
    checkpoint_monitor_fire
      (⟨[(3, [⟨some 30⟩]), (4, [⟨some 40⟩]), (5, [⟨some 50⟩])], none⟩ :
        MonitorState Nat) 6 =
    (⟨[], some 6⟩, [⟨3, 30⟩, ⟨4, 40⟩, ⟨5, 50⟩]) := rfl

example :
    checkpoint_monitor_fire (⟨[(3, [⟨some 30⟩])], some 5⟩ : MonitorState Nat) 7 =
    (⟨[(3, [⟨some 30⟩])], some 7⟩, []) := rfl

/-! ## Arithmetic helper lemmas -/

theorem wrapI64_eq_self {x : Int} (h : inI64 x) : wrapI64 x = x := by
  unfold wrapI64
  unfold inI64 at h
  omega

theorem toU32_eq_toNat {x : Int} (h0 : 0 ≤ x) (h32 : x < 4294967296) :
    toU32 x = x.toNat := by
  unfold toU32
  omega

/-! ## Claim theorems: the epoch clock -/

/-- C8: `set_period` stores `some 1` when the supplied period is `0` and
`some p` otherwise; in particular the stored period is never `0`. -/
theorem set_period_clamps_zero (st : EpochManager) (p : Nat) :
    (set_period st p).checkpoints_period = some (if p = 0 then 1 else p) ∧
    (set_period st p).checkpoints_period ≠ some 0 := by
  refine ⟨rfl, ?_⟩
  unfold set_period
  by_cases h : p = 0 <;> simp [h]

/-- C10: With `checkpoint_zero_timestamp` unset, `epoch_at` and
`epoch_timestamp` both return `UnknownEpochZero` whatever the period field
holds (the missing-zero arm precedes the missing-period arm), and an
`epoch_at` result of `CheckpointZeroInTheFuture z` is only reachable when
both configuration fields are set (and pins down the stored zero). -/
theorem unset_config_error_precedence (st : EpochManager) (t : Int) (e : Nat)
    (q : Option Nat) (z : Int) :
    epoch_at ⟨none, q⟩ t = .error .UnknownEpochZero ∧
    epoch_timestamp ⟨none, q⟩ e = .error .UnknownEpochZero ∧
    (epoch_at st t = .error (.CheckpointZeroInTheFuture z) →
      st.checkpoint_zero_timestamp = some z ∧ st.checkpoints_period.isSome = true) := by
  refine ⟨rfl, rfl, ?_⟩
  intro h
  rcases st with ⟨_ | z0, _ | p0⟩
  · simp [epoch_at] at h
  · simp [epoch_at] at h
  · simp [epoch_at] at h
  · simp only [epoch_at] at h
    split at h
    · simp only [Except.error.injEq, EpochManagerError.CheckpointZeroInTheFuture.injEq] at h
      subst h
      simp
    · simp at h

/-- Witness for C10: the state `⟨some 1000, some 10⟩` produces
`CheckpointZeroInTheFuture 1000` at timestamp `500`. -/
theorem unset_config_error_precedence_witness :
    (⟨some 1000, some 10⟩ : EpochManager).checkpoint_zero_timestamp = some 1000 ∧
    (⟨some 1000, some 10⟩ : EpochManager).checkpoints_period.isSome = true :=
  (unset_config_error_precedence ⟨some 1000, some 10⟩ 500 0 none 1000).2.2 rfl

/-- Once the payload of a `SingleEpochSubscription` is consumed, any number
of further `send_notification` calls leave it consumed and send nothing. -/
theorem send_many_consumed (es : List Nat) :
    send_many (⟨none⟩ : SingleEpochSubscription α) es = (⟨none⟩, []) := by
  induction es with
  | nil => rfl
  | cons e es ih => simp [send_many, send_notification, ih]

/-- C9: Over any lifetime of `send_notification` calls a
`SingleEpochSubscription` produces at most one message; each call leaves the
payload consumed (`take`), and a call on a consumed subscription sends
nothing. -/
theorem single_subscription_one_shot (sub : SingleEpochSubscription α)
    (es : List Nat) (e e' : Nat) :
    (send_many sub es).2.length ≤ 1 ∧
    (send_notification sub e).1.payload = none ∧
    (send_notification (⟨none⟩ : SingleEpochSubscription α) e').2 = none := by
  refine ⟨?_, ?_, rfl⟩
  · cases es with
    | nil => simp [send_many]
    | cons a as =>
        rcases sub with ⟨_ | p⟩
        · simp [send_many, send_notification, send_many_consumed]
        · simp [send_many, send_notification, send_many_consumed]
  · rcases sub with ⟨_ | p⟩ <;> rfl

/-- Closed form of `epoch_timestamp` on a configured clock: the checked
`u32` multiplication, the vacuous filter and the checked `i64` addition
collapse to one range test. -/
theorem epoch_timestamp_eq_ite (z : Int) (p e : Nat) :
    epoch_timestamp ⟨some z, some p⟩ e =
      if p * e ≤ u32Max ∧ inI64 ((p * e : Nat) + z)
      then .ok ((p * e : Nat) + z)
      else .error .Overflow := by
  split
  · rename_i h
    have h1 : checked_mul_u32 p e = some (p * e) := by
      unfold checked_mul_u32
      rw [if_pos h.1]
    have h2 : checked_add_i64 ((p * e : Nat) : Int) z = some (((p * e : Nat) : Int) + z) := by
      unfold checked_add_i64
      rw [if_pos h.2]
    push_cast at h2
    simp [epoch_timestamp, h1, h2, Option.filter, h.1]
  · rename_i h
    by_cases hm : p * e ≤ u32Max
    · have hb : ¬ inI64 ((p * e : Nat) + z) := fun hc => h ⟨hm, hc⟩
      have h1 : checked_mul_u32 p e = some (p * e) := by
        unfold checked_mul_u32
        rw [if_pos hm]
      have h2 : checked_add_i64 ((p * e : Nat) : Int) z = none := by
        unfold checked_add_i64
        rw [if_neg hb]
      push_cast at h2
      simp [epoch_timestamp, h1, h2, Option.filter, hm]
    · have h1 : checked_mul_u32 p e = none := by
        unfold checked_mul_u32
        rw [if_neg hm]
      simp [epoch_timestamp, h1, Option.filter]

/-- C3: For a configured clock, `epoch_timestamp e` is
`Ok (period * e + zero)` exactly when `period * e` fits in `u32` (the
epoch's native width) and the subsequent `i64` addition of `zero` stays in
range; in every other case it is `Err Overflow`, never a wrapped or
truncated value. -/
theorem epoch_timestamp_checked_arith (z : Int) (p e : Nat) :
    (p * e ≤ u32Max ∧ inI64 ((p * e : Nat) + z) →
      epoch_timestamp ⟨some z, some p⟩ e = .ok ((p * e : Nat) + z)) ∧
    (¬(p * e ≤ u32Max ∧ inI64 ((p * e : Nat) + z)) →
      epoch_timestamp ⟨some z, some p⟩ e = .error .Overflow) := by
  constructor <;> intro h
  · rw [epoch_timestamp_eq_ite, if_pos h]
  · rw [epoch_timestamp_eq_ite, if_neg h]

/-- Witness for C3: at `zero = 1000`, `period = 10`, epoch `2` maps to
timestamp `1020` (the spec's concrete scenario), and `period * e` of
`2^31 * 2` overflows `u32`, yielding `Overflow`. -/
theorem epoch_timestamp_checked_arith_witness :
    epoch_timestamp ⟨some 1000, some 10⟩ 2 = .ok 1020 ∧
    epoch_timestamp ⟨some 0, some 2⟩ 2147483648 = .error .Overflow :=
  ⟨(epoch_timestamp_checked_arith 1000 10 2).1 (by constructor <;> decide),
   (epoch_timestamp_checked_arith 0 2 2147483648).2 (by decide)⟩

/-- C1 counterexample: At `zero = 0`, `period = 2`,
`t = 2^32`: `floor((t - zero)/period) = 2^31`, but `epoch_at` truncates the
64-bit elapsed time to 32 bits (`elapsed as Epoch`) before dividing and
returns `Ok 0`. -/
theorem epoch_at_truncation_counterexample :
    epoch_at ⟨some 0, some 2⟩ 4294967296 = .ok 0 ∧
    ((4294967296 : Int) - 0) / 2 = 2147483648 ∧
    ¬ epoch_at ⟨some 0, some 2⟩ 4294967296 = .ok 2147483648 := by
  refine ⟨rfl, by decide, ?_⟩
  intro h
  rw [show epoch_at ⟨some 0, some 2⟩ 4294967296 = .ok 0 from rfl] at h
  simp at h

/-- C1 amended: For a configured clock and a timestamp whose `i64`
difference from `zero` does not overflow: when `zero ≤ t`, `epoch_at`
returns `Ok (((t - zero) mod 2^32) / period)`, i.e. the elapsed seconds are
truncated to 32 bits before the division (so the result equals
`floor((t - zero)/period)` exactly when `t - zero < 2^32`); when `t < zero`
it returns `Err (CheckpointZeroInTheFuture zero)`; when `zero` is unset it
returns `Err UnknownEpochZero` (whatever the period field holds), and when
only the period is unset, `Err UnknownCheckpointPeriod`. -/
theorem epoch_at_truncated_characterization (z t : Int) (p : Nat)
    (hd : inI64 (t - z)) :
    (z ≤ t → epoch_at ⟨some z, some p⟩ t = .ok ((t - z).toNat % 4294967296 / p)) ∧
    (z ≤ t → t - z < 4294967296 → epoch_at ⟨some z, some p⟩ t = .ok ((t - z).toNat / p)) ∧
    (t < z → epoch_at ⟨some z, some p⟩ t = .error (.CheckpointZeroInTheFuture z)) ∧
    (∀ q, epoch_at ⟨none, q⟩ t = .error .UnknownEpochZero) ∧
    epoch_at ⟨some z, none⟩ t = .error .UnknownCheckpointPeriod := by
  have hw : wrapI64 (t - z) = t - z := wrapI64_eq_self hd
  refine ⟨?_, ?_, ?_, fun q => rfl, rfl⟩
  · intro hz
    have hnn : ¬ (t - z < 0) := by omega
    have ht32 : toU32 (t - z) = (t - z).toNat % 4294967296 := by
      unfold toU32
      omega
    simp [epoch_at, hw, hnn, ht32]
  · intro hz hlt
    have hnn : ¬ (t - z < 0) := by omega
    have ht32 : toU32 (t - z) = (t - z).toNat := toU32_eq_toNat (by omega) hlt
    simp [epoch_at, hw, hnn, ht32]
  · intro hz
    have hneg : t - z < 0 := by omega
    simp [epoch_at, hw, hneg]

/-- Witness for C1 (amended): the spec's concrete scenario
`zero = 1000`, `period = 10`, `t = 1025` lands in epoch `2`. -/
theorem epoch_at_truncated_characterization_witness :
    epoch_at ⟨some 1000, some 10⟩ 1025 = .ok ((1025 - 1000 : Int).toNat % 4294967296 / 10) :=
  (epoch_at_truncated_characterization 1000 1025 10 (by decide)).1 (by decide)

/-- C4 counterexample: `t1 = 2^32 - 1 ≤ t2 = 2^32`, both at or after
`zero = 0` with `period = 1`: both calls succeed but the epoch drops from
`2^32 - 1` back to `0` because the elapsed time is truncated to 32 bits, so
`epoch_at` is not monotone over all timestamps at or after `zero`. -/
theorem epoch_at_monotone_counterexample :
    (0 : Int) ≤ 4294967295 ∧ (4294967295 : Int) ≤ 4294967296 ∧
    epoch_at ⟨some 0, some 1⟩ 4294967295 = .ok 4294967295 ∧
    epoch_at ⟨some 0, some 1⟩ 4294967296 = .ok 0 ∧
    ¬ (4294967295 : Nat) ≤ 0 :=
  ⟨by decide, by decide, rfl, rfl, by decide⟩

/-- C4 amended: For a configured clock, `epoch_at` is monotone
nondecreasing on `zero ≤ t1 ≤ t2` as long as the elapsed time stays below
`2^32` seconds (no 32-bit truncation), and both calls succeed there. -/
theorem epoch_at_monotone_within_u32 (z t1 t2 : Int) (p : Nat)
    (h1 : z ≤ t1) (h12 : t1 ≤ t2) (h2 : t2 - z < 4294967296) :
    epoch_at ⟨some z, some p⟩ t1 = .ok ((t1 - z).toNat / p) ∧
    epoch_at ⟨some z, some p⟩ t2 = .ok ((t2 - z).toNat / p) ∧
    (t1 - z).toNat / p ≤ (t2 - z).toNat / p := by
  have hd1 : inI64 (t1 - z) := by
    unfold inI64
    omega
  have hd2 : inI64 (t2 - z) := by
    unfold inI64
    omega
  have hp1 : ¬ (t1 - z < 0) := by omega
  have hp2 : ¬ (t2 - z < 0) := by omega
  have ht1 : toU32 (t1 - z) = (t1 - z).toNat := toU32_eq_toNat (by omega) (by omega)
  have ht2 : toU32 (t2 - z) = (t2 - z).toNat := toU32_eq_toNat (by omega) h2
  refine ⟨?_, ?_, ?_⟩
  · simp [epoch_at, wrapI64_eq_self hd1, hp1, ht1]
  · simp [epoch_at, wrapI64_eq_self hd2, hp2, ht2]
  · apply Nat.div_le_div_right
    omega

/-- Witness for C4 (amended): `zero = 1000`, `period = 10`,
`t1 = 1020 ≤ t2 = 1025`. -/
theorem epoch_at_monotone_within_u32_witness :
    epoch_at ⟨some 1000, some 10⟩ 1020 = .ok ((1020 - 1000 : Int).toNat / 10) ∧
    epoch_at ⟨some 1000, some 10⟩ 1025 = .ok ((1025 - 1000 : Int).toNat / 10) ∧
    (1020 - 1000 : Int).toNat / 10 ≤ (1025 - 1000 : Int).toNat / 10 :=
  epoch_at_monotone_within_u32 1000 1020 1025 10 (by decide) (by decide) (by decide)

/-- C5: For a configured clock with a nonzero period (the only periods
`set_period` stores), whenever `epoch_timestamp e` succeeds with `Ok ts`,
`epoch_at ts` recovers exactly `e`. -/
theorem epoch_timestamp_roundtrip (z : Int) (p e : Nat) (ts : Int) (hp : 0 < p)
    (h : epoch_timestamp ⟨some z, some p⟩ e = .ok ts) :
    epoch_at ⟨some z, some p⟩ ts = .ok e := by
  rw [epoch_timestamp_eq_ite] at h
  split at h
  · rename_i hcond
    obtain ⟨hm, _⟩ := hcond
    have hts : ts = ((p * e : Nat) : Int) + z := (Except.ok.inj h).symm
    subst hts
    have hm' : p * e ≤ 4294967295 := hm
    have key : ((p * e : Nat) : Int) + z - z = ((p * e : Nat) : Int) := by ring
    have hd : inI64 ((p * e : Nat) : Int) := by
      unfold inI64
      omega
    have h0 : ¬ (((p * e : Nat) : Int) < 0) := by omega
    have ht : toU32 ((p * e : Nat) : Int) = p * e := by
      unfold toU32
      omega
    show (if wrapI64 (((p * e : Nat) : Int) + z - z) < 0
          then Except.error (EpochManagerError.CheckpointZeroInTheFuture z)
          else Except.ok (toU32 (wrapI64 (((p * e : Nat) : Int) + z - z)) / p)) =
        Except.ok e
    rw [key, wrapI64_eq_self hd, if_neg h0, ht, Nat.mul_div_cancel_left e hp]
  · exact absurd h (by simp)

/-- Witness for C5: `zero = 1000`, `period = 10`, epoch `2` maps to
timestamp `1020` and back. -/
theorem epoch_timestamp_roundtrip_witness :
    epoch_at ⟨some 1000, some 10⟩ 1020 = .ok 2 :=
  epoch_timestamp_roundtrip 1000 10 2 1020 (by decide) rfl

/-- Closed form of `epoch_at` on a configured clock, assuming the `i64`
subtraction `t - zero` does not wrap. -/
theorem epoch_at_eq_ite (z t : Int) (p : Nat) (hd : inI64 (t - z)) :
    epoch_at ⟨some z, some p⟩ t =
      if t < z then .error (.CheckpointZeroInTheFuture z)
      else .ok ((t - z).toNat % 4294967296 / p) := by
  have hw : wrapI64 (t - z) = t - z := wrapI64_eq_self hd
  by_cases hz : t < z
  · have hneg : t - z < 0 := by omega
    simp [epoch_at, hw, hneg, hz]
  · have hnn : ¬ (t - z < 0) := by omega
    have ht32 : toU32 (t - z) = (t - z).toNat % 4294967296 := by
      unfold toU32
      omega
    simp [epoch_at, hw, hnn, ht32, hz]

theorem exceptBind_ok {α β : Type} (a : α) (f : α → Except EpochManagerError β) :
    ((Except.ok a : Except EpochManagerError α) >>= f) = f a := rfl

theorem exceptBind_error {α β : Type} (e : EpochManagerError)
    (f : α → Except EpochManagerError β) :
    ((Except.error e : Except EpochManagerError α) >>= f) = .error e := rfl

/-- Unfolding of `time_to_next_checkpoint` into its cascade of checks. -/
theorem time_to_next_eq (st : EpochManager) (now_secs : Int) (now_nanos : Nat) :
    time_to_next_checkpoint st now_secs now_nanos =
      match epoch_at st now_secs with
      | .error e => .error e
      | .ok current_epoch =>
        match checked_add_u32 current_epoch 1 with
        | none => .error .Overflow
        | some next_epoch =>
          match epoch_timestamp st next_epoch with
          | .error e => .error e
          | .ok next_checkpoint =>
            if wrapI64 (next_checkpoint - now_secs) < 0 then .error .Overflow
            else .ok (durationNew (wrapI64 (next_checkpoint - now_secs)).toNat
                       (1000000000 - now_nanos)) := by
  unfold time_to_next_checkpoint
  cases h1 : epoch_at st now_secs with
  | error e => rfl
  | ok cur =>
      simp only [exceptBind_ok]
      cases h2 : checked_add_u32 cur 1 with
      | none => simp only [exceptBind_error]
      | some ne =>
          simp only [exceptBind_ok]
          cases h3 : epoch_timestamp st ne with
          | error e => simp only [exceptBind_error]
          | ok next => simp only [exceptBind_ok]

/-- C6 counterexample: With `zero = 1000`, `period = 10` and the time
reading `(500, 0)` (before the zero point), `time_to_next_checkpoint` fails
with `CheckpointZeroInTheFuture 1000`, which is neither of the claim's two
`Overflow` cases nor a returned duration. -/
theorem time_to_next_zero_future_counterexample :
    time_to_next_checkpoint ⟨some 1000, some 10⟩ 500 0 =
      .error (.CheckpointZeroInTheFuture 1000) ∧
    (Except.error (EpochManagerError.CheckpointZeroInTheFuture 1000) :
        Except EpochManagerError Nat) ≠ .error .Overflow := by
  refine ⟨rfl, ?_⟩
  intro h
  simp at h

/-- C6 amended: For a configured clock (and a time reading whose `i64`
distance to `zero` does not wrap): when `now < zero` the call fails with
`CheckpointZeroInTheFuture zero` propagated from `epoch_at`; otherwise, with
`cur` the current epoch (`epoch_at now`, i.e. the truncated elapsed time
divided by the period), the call fails with `Overflow` when `cur + 1`
overflows `u32`, when `epoch_timestamp (cur + 1)` itself overflows, or when
`next - now` is negative, and otherwise returns the duration of
`next - now` seconds plus `10^9 - now_nanos` nanoseconds, where
`next = period * (cur + 1) + zero` is the next checkpoint's timestamp. -/
theorem time_to_next_characterization (z now : Int) (p nn cur : Nat)
    (hd : inI64 (now - z))
    (hcur : cur = (now - z).toNat % 4294967296 / p) :
    (now < z → time_to_next_checkpoint ⟨some z, some p⟩ now nn =
        .error (.CheckpointZeroInTheFuture z)) ∧
    (z ≤ now →
      (u32Max < cur + 1 →
        time_to_next_checkpoint ⟨some z, some p⟩ now nn = .error .Overflow) ∧
      (cur + 1 ≤ u32Max →
        (¬(p * (cur + 1) ≤ u32Max ∧ inI64 ((p * (cur + 1) : Nat) + z)) →
          time_to_next_checkpoint ⟨some z, some p⟩ now nn = .error .Overflow) ∧
        (p * (cur + 1) ≤ u32Max → inI64 ((p * (cur + 1) : Nat) + z) →
          (((p * (cur + 1) : Nat) : Int) + z - now < 0 →
            time_to_next_checkpoint ⟨some z, some p⟩ now nn = .error .Overflow) ∧
          (0 ≤ ((p * (cur + 1) : Nat) : Int) + z - now →
            time_to_next_checkpoint ⟨some z, some p⟩ now nn =
              .ok (durationNew ((((p * (cur + 1) : Nat) : Int) + z - now).toNat)
                (1000000000 - nn)))))) := by
  constructor
  · intro hlt
    have he : epoch_at ⟨some z, some p⟩ now = .error (.CheckpointZeroInTheFuture z) := by
      rw [epoch_at_eq_ite z now p hd, if_pos hlt]
    simp only [time_to_next_eq, he]
  · intro hz
    have he : epoch_at ⟨some z, some p⟩ now = .ok cur := by
      rw [epoch_at_eq_ite z now p hd, if_neg (not_lt.mpr hz), hcur]
    refine ⟨?_, fun h1 => ⟨?_, fun hm ha => ⟨?_, ?_⟩⟩⟩
    · intro hB
      have hno : checked_add_u32 cur 1 = none := by
        unfold checked_add_u32
        rw [if_neg (by omega)]
      simp only [time_to_next_eq, he, hno]
    · intro hC
      have hyes : checked_add_u32 cur 1 = some (cur + 1) := by
        unfold checked_add_u32
        rw [if_pos h1]
      have hts : epoch_timestamp ⟨some z, some p⟩ (cur + 1) = .error .Overflow := by
        rw [epoch_timestamp_eq_ite, if_neg hC]
      simp only [time_to_next_eq, he, hyes, hts]
    · intro hD
      have hyes : checked_add_u32 cur 1 = some (cur + 1) := by
        unfold checked_add_u32
        rw [if_pos h1]
      have hts : epoch_timestamp ⟨some z, some p⟩ (cur + 1) =
          .ok ((p * (cur + 1) : Nat) + z) := by
        rw [epoch_timestamp_eq_ite, if_pos ⟨hm, ha⟩]
      have hw : wrapI64 (((p * (cur + 1) : Nat) : Int) + z - now) =
          ((p * (cur + 1) : Nat) : Int) + z - now := by
        apply wrapI64_eq_self
        unfold inI64 at hd ⊢
        unfold u32Max at hm
        omega
      simp only [time_to_next_eq, he, hyes, hts]
      rw [hw, if_pos hD]
    · intro hE
      have hyes : checked_add_u32 cur 1 = some (cur + 1) := by
        unfold checked_add_u32
        rw [if_pos h1]
      have hts : epoch_timestamp ⟨some z, some p⟩ (cur + 1) =
          .ok ((p * (cur + 1) : Nat) + z) := by
        rw [epoch_timestamp_eq_ite, if_pos ⟨hm, ha⟩]
      have hw : wrapI64 (((p * (cur + 1) : Nat) : Int) + z - now) =
          ((p * (cur + 1) : Nat) : Int) + z - now := by
        apply wrapI64_eq_self
        unfold inI64 at hd ⊢
        unfold u32Max at hm
        omega
      simp only [time_to_next_eq, he, hyes, hts]
      rw [hw, if_neg (not_lt.mpr hE)]

/-- Witness for C6 (amended): `zero = 1000`, `period = 10`, time reading
`(1025, 5)`: the next checkpoint is at `1030`, so the call returns
`5` seconds plus `10^9 - 5` nanoseconds. -/
theorem time_to_next_characterization_witness :
    time_to_next_checkpoint ⟨some 1000, some 10⟩ 1025 5 =
      .ok (durationNew 5 999999995) := by
  have h := ((time_to_next_characterization 1000 1025 10 5 2 (by decide)
      (by decide)).2 (by decide)).2 (by decide)
  have h2 := (h.2 (by decide) (by decide)).2 (by decide)
  exact h2

/-! ## Monitor helper lemmas -/

theorem btree_remove_cons_self (k : Nat) (v : List (SingleEpochSubscription α))
    (rest : List (Nat × List (SingleEpochSubscription α))) :
    btree_remove k ((k, v) :: rest) = (some v, rest) := by
  simp [btree_remove]

theorem btree_remove_cons_ne (k k0 : Nat) (h : k0 ≠ k)
    (v0 : List (SingleEpochSubscription α))
    (rest : List (Nat × List (SingleEpochSubscription α))) :
    btree_remove k ((k0, v0) :: rest) =
      ((btree_remove k rest).1, (k0, v0) :: (btree_remove k rest).2) := by
  rcases hr : btree_remove k rest with ⟨r, rest2⟩
  simp [btree_remove, h, hr]

theorem send_snd_checkpoint {s : SingleEpochSubscription α} {k : Nat}
    {m : EpochNotification α} (h : (send_notification s k).2 = some m) :
    m.checkpoint = k := by
  rcases s with ⟨_ | p⟩
  · simp [send_notification] at h
  · simp only [send_notification, Option.some.injEq] at h
    rw [← h]

theorem mem_sends_checkpoint (l : List (SingleEpochSubscription α)) (k : Nat) :
    ∀ m ∈ l.filterMap (fun s => (send_notification s k).2), m.checkpoint = k := by
  intro m hm
  rcases List.mem_filterMap.mp hm with ⟨s, _, hs⟩
  exact send_snd_checkpoint hs

theorem sends_length (l : List (SingleEpochSubscription α)) (k : Nat)
    (h : ∀ s ∈ l, s.payload.isSome) :
    (l.filterMap (fun s => (send_notification s k).2)).length = l.length := by
  induction l with
  | nil => rfl
  | cons s l ih =>
      have hs := h s (List.mem_cons_self s l)
      rcases s with ⟨_ | p⟩
      · simp at hs
      · have hhead : (send_notification (⟨some p⟩ : SingleEpochSubscription α) k).2 =
            some ⟨k, p⟩ := rfl
        rw [@List.filterMap_cons_some (SingleEpochSubscription α) (EpochNotification α)
            (fun s => (send_notification s k).2) ⟨some p⟩ l ⟨k, p⟩ hhead,
          List.length_cons, List.length_cons,
          ih (fun s2 hs2 => h s2 (List.mem_cons_of_mem _ hs2))]

theorem mem_range_keys {subs : List (Nat × List (SingleEpochSubscription α))}
    {l c k : Nat} (h : k ∈ range_keys subs l c) :
    ∃ kv ∈ subs, kv.1 = k ∧ inRangeB l c kv = true := by
  unfold range_keys at h
  rcases List.mem_map.mp h with ⟨kv, hkv, rfl⟩
  exact ⟨kv, (List.mem_filter.mp hkv).1, rfl, (List.mem_filter.mp hkv).2⟩

theorem fire_loop_skip (ks : List Nat) (k0 : Nat)
    (v0 : List (SingleEpochSubscription α)) :
    ∀ subs, (∀ k ∈ ks, k ≠ k0) →
      fire_loop ks ((k0, v0) :: subs) =
        ((k0, v0) :: (fire_loop ks subs).1, (fire_loop ks subs).2) := by
  induction ks with
  | nil =>
      intro subs _
      rfl
  | cons k ks ih =>
      intro subs h
      have h' : ∀ x ∈ ks, x ≠ k0 := fun x hx => h x (List.mem_cons_of_mem _ hx)
      have hk : k0 ≠ k := fun he => (h k (List.mem_cons_self _ _)) he.symm
      rcases hr : btree_remove k subs with ⟨r, subs2⟩
      have hrec : btree_remove k ((k0, v0) :: subs) = (r, (k0, v0) :: subs2) := by
        rw [btree_remove_cons_ne k k0 hk v0 subs, hr]
      rcases r with _ | entry
      · simp only [fire_loop, hrec, hr]
        exact ih subs2 h'
      · rcases hf : fire_loop ks subs2 with ⟨A, B⟩
        have hih := ih subs2 h'
        rw [hf] at hih
        simp only [fire_loop, hrec, hr, hih, hf]

theorem fire_loop_range (l c : Nat) :
    ∀ (subs : List (Nat × List (SingleEpochSubscription α))),
      subs.Pairwise (fun a b => a.1 < b.1) →
      fire_loop (range_keys subs l c) subs =
        (subs.filter (fun kv => !(inRangeB l c kv)),
         (subs.filter (inRangeB l c)).flatMap deliveries) := by
  intro subs
  induction subs with
  | nil =>
      intro _
      rfl
  | cons kv rest ih =>
      intro hs
      rcases kv with ⟨k0, v0⟩
      rcases List.pairwise_cons.mp hs with ⟨hlt, hrest⟩
      by_cases hin : inRangeB l c (k0, v0)
      · have hkeys : range_keys ((k0, v0) :: rest) l c = k0 :: range_keys rest l c := by
          simp [range_keys, List.filter_cons, hin]
        rw [hkeys]
        rcases hf : fire_loop (range_keys rest l c) rest with ⟨A, B⟩
        have hih := ih hrest
        rw [hf] at hih
        simp only [fire_loop, btree_remove_cons_self, hf, hih]
        simp [List.filter_cons, hin, deliveries]
      · have hkeys : range_keys ((k0, v0) :: rest) l c = range_keys rest l c := by
          simp [range_keys, List.filter_cons, hin]
        rw [hkeys]
        have hne : ∀ k ∈ range_keys rest l c, k ≠ k0 := by
          intro k hk
          rcases mem_range_keys hk with ⟨kv2, hkv2, hfst, _⟩
          have hlt2 := hlt kv2 hkv2
          omega
        rw [fire_loop_skip _ k0 v0 rest hne, ih hrest]
        simp [List.filter_cons, hin]

theorem fire_loop_checkpoints (ks : List Nat) :
    ∀ (subs : List (Nat × List (SingleEpochSubscription α))),
      ∀ m ∈ (fire_loop ks subs).2, m.checkpoint ∈ ks := by
  induction ks with
  | nil =>
      intro subs m hm
      simp [fire_loop] at hm
  | cons k ks ih =>
      intro subs m hm
      rcases hr : btree_remove k subs with ⟨r, subs2⟩
      rcases r with _ | entry
      · rw [show fire_loop (k :: ks) subs = fire_loop ks subs2 by simp [fire_loop, hr]] at hm
        exact List.mem_cons_of_mem _ (ih subs2 m hm)
      · rcases hf : fire_loop ks subs2 with ⟨A, B⟩
        have hsnd : (fire_loop (k :: ks) subs).2 =
            entry.filterMap (fun s => (send_notification s k).2) ++ B := by
          simp [fire_loop, hr, hf]
        rw [hsnd] at hm
        rcases List.mem_append.mp hm with hm1 | hm2
        · rw [mem_sends_checkpoint entry k m hm1]
          exact List.mem_cons_self _ _
        · refine List.mem_cons_of_mem _ (ih subs2 m ?_)
          rw [hf]
          exact hm2

theorem checkpoint_monitor_fire_snd (st : MonitorState α) (c : Nat) :
    (checkpoint_monitor_fire st c).2 =
      (fire_loop (range_keys st.subscriptions_epoch (st.last_checked_epoch.getD 0) c)
        st.subscriptions_epoch).2 := by
  rcases hf : fire_loop (range_keys st.subscriptions_epoch
      (st.last_checked_epoch.getD 0) c) st.subscriptions_epoch with ⟨A, B⟩
  simp [checkpoint_monitor_fire, hf]

theorem checkpoint_monitor_fire_eq (st : MonitorState α) (c : Nat)
    (hsorted : st.subscriptions_epoch.Pairwise (fun a b => a.1 < b.1)) :
    checkpoint_monitor_fire st c =
      (⟨st.subscriptions_epoch.filter
          (fun kv => !(inRangeB (st.last_checked_epoch.getD 0) c kv)), some c⟩,
       (st.subscriptions_epoch.filter
          (inRangeB (st.last_checked_epoch.getD 0) c)).flatMap deliveries) := by
  have hf := fire_loop_range (st.last_checked_epoch.getD 0) c
    st.subscriptions_epoch hsorted
  simp [checkpoint_monitor_fire, hf]

theorem countP_sends_self (l : List (SingleEpochSubscription α)) (k : Nat)
    (h : ∀ s ∈ l, s.payload.isSome) :
    (l.filterMap (fun s => (send_notification s k).2)).countP
      (fun m => m.checkpoint == k) = l.length := by
  have hall : ∀ m ∈ l.filterMap (fun s => (send_notification s k).2),
      (fun m : EpochNotification α => m.checkpoint == k) m = true := by
    intro m hm
    simp [mem_sends_checkpoint l k m hm]
  rw [List.countP_eq_length.mpr hall, sends_length l k h]

theorem countP_sends_ne (l : List (SingleEpochSubscription α)) (k k2 : Nat)
    (hne : k ≠ k2) :
    (l.filterMap (fun s => (send_notification s k).2)).countP
      (fun m => m.checkpoint == k2) = 0 := by
  rw [List.countP_eq_zero]
  intro m hm
  simp [mem_sends_checkpoint l k m hm, hne]

theorem countP_flatMap_deliveries (k : Nat) :
    ∀ (L : List (Nat × List (SingleEpochSubscription α))),
      L.Pairwise (fun a b => a.1 < b.1) →
      (∀ kv ∈ L, ∀ s ∈ kv.2, s.payload.isSome) →
      ∀ kv ∈ L, kv.1 = k →
      (L.flatMap deliveries).countP (fun m => m.checkpoint == k) = kv.2.length := by
  intro L
  induction L with
  | nil =>
      intro _ _ kv hkv
      exact absurd hkv (List.not_mem_nil kv)
  | cons kv0 rest ih =>
      intro hp hpay kv hkv hk
      rcases List.pairwise_cons.mp hp with ⟨hlt, hrest⟩
      rw [List.flatMap_cons, List.countP_append]
      rcases List.mem_cons.mp hkv with heq | hmem
      · subst heq
        have h1 : (deliveries kv).countP
            (fun m : EpochNotification α => m.checkpoint == k) = kv.2.length := by
          rw [← hk]
          exact countP_sends_self kv.2 kv.1 (hpay kv (List.mem_cons_self _ _))
        have h2 : (rest.flatMap deliveries).countP
            (fun m : EpochNotification α => m.checkpoint == k) = 0 := by
          rw [List.countP_eq_zero]
          intro m hm
          rcases List.mem_flatMap.mp hm with ⟨kv2, hkv2, hmd⟩
          have hc : m.checkpoint = kv2.1 := mem_sends_checkpoint kv2.2 kv2.1 m hmd
          have hgt := hlt kv2 hkv2
          simp only [beq_iff_eq]
          omega
        rw [h1, h2]
        omega
      · have h1 : (deliveries kv0).countP
            (fun m : EpochNotification α => m.checkpoint == k) = 0 := by
          apply countP_sends_ne
          have hgt := hlt kv hmem
          omega
        rw [h1, ih hrest (fun kv2 h2 => hpay kv2 (List.mem_cons_of_mem _ h2)) kv hmem hk]
        omega

theorem flatMap_deliveries_sorted :
    ∀ (L : List (Nat × List (SingleEpochSubscription α))),
      L.Pairwise (fun a b => a.1 < b.1) →
      ((L.flatMap deliveries).map EpochNotification.checkpoint).Pairwise (· ≤ ·) := by
  intro L
  induction L with
  | nil =>
      intro _
      simp
  | cons kv rest ih =>
      intro hp
      rcases List.pairwise_cons.mp hp with ⟨hlt, hrest⟩
      rw [List.flatMap_cons, List.map_append, List.pairwise_append]
      refine ⟨?_, ih hrest, ?_⟩
      · apply List.pairwise_of_forall_mem_list
        intro a ha b hb
        rcases List.mem_map.mp ha with ⟨m1, hm1, rfl⟩
        rcases List.mem_map.mp hb with ⟨m2, hm2, rfl⟩
        rw [mem_sends_checkpoint kv.2 kv.1 m1 hm1, mem_sends_checkpoint kv.2 kv.1 m2 hm2]
      · intro a ha b hb
        rcases List.mem_map.mp ha with ⟨m1, hm1, rfl⟩
        rcases List.mem_map.mp hb with ⟨m2, hm2, rfl⟩
        rcases List.mem_flatMap.mp hm2 with ⟨kv2, hkv2, hmd⟩
        rw [mem_sends_checkpoint kv.2 kv.1 m1 hm1,
          mem_sends_checkpoint kv2.2 kv2.1 m2 hmd]
        exact Nat.le_of_lt (hlt kv2 hkv2)

/-- C2: at a firing with current epoch `c`, every single-epoch subscription
whose key lies in the inclusive range `[last_checked_epoch.unwrap_or(0), c]`
is delivered exactly once (one message per subscription, counted per key),
deliveries occur in ascending epoch order, those entries are removed from
the registry (and `last_checked_epoch` becomes `Some c`), and a subsequent
firing at any epoch delivers no further notification in that range.
Hypotheses: the `BTreeMap` key invariant (strictly ascending keys), every
registered subscription still holds its payload (as `subscribe_to_epoch`
creates them), and `last ≤ c` (Rust's `range(l..=c)` panics otherwise). -/
theorem checkpoint_monitor_catch_up (st : MonitorState α) (c c2 : Nat)
    (hsorted : st.subscriptions_epoch.Pairwise (fun a b => a.1 < b.1))
    (hpay : ∀ kv ∈ st.subscriptions_epoch, ∀ s ∈ kv.2, s.payload.isSome)
    (hlc : st.last_checked_epoch.getD 0 ≤ c) :
    (checkpoint_monitor_fire st c).2 =
      (st.subscriptions_epoch.filter
        (inRangeB (st.last_checked_epoch.getD 0) c)).flatMap deliveries ∧
    ((checkpoint_monitor_fire st c).2.map EpochNotification.checkpoint).Pairwise
      (· ≤ ·) ∧
    (∀ kv ∈ st.subscriptions_epoch,
      inRangeB (st.last_checked_epoch.getD 0) c kv = true →
      (checkpoint_monitor_fire st c).2.countP (fun m => m.checkpoint == kv.1) =
        kv.2.length) ∧
    (checkpoint_monitor_fire st c).1.subscriptions_epoch =
      st.subscriptions_epoch.filter
        (fun kv => !(inRangeB (st.last_checked_epoch.getD 0) c kv)) ∧
    (checkpoint_monitor_fire st c).1.last_checked_epoch = some c ∧
    (∀ m ∈ (checkpoint_monitor_fire (checkpoint_monitor_fire st c).1 c2).2,
      ¬(st.last_checked_epoch.getD 0 ≤ m.checkpoint ∧ m.checkpoint ≤ c)) := by
  have hmain := checkpoint_monitor_fire_eq st c hsorted
  refine ⟨?_, ?_, ?_, ?_, ?_, ?_⟩
  · rw [hmain]
  · rw [hmain]
    exact flatMap_deliveries_sorted _ (hsorted.filter _)
  · intro kv hkv hin
    rw [hmain]
    exact countP_flatMap_deliveries kv.1 _ (hsorted.filter _)
      (fun kv2 h2 => hpay kv2 (List.mem_filter.mp h2).1) kv
      (List.mem_filter.mpr ⟨hkv, hin⟩) rfl
  · rw [hmain]
  · rw [hmain]
  · intro m hm
    rw [hmain, checkpoint_monitor_fire_snd] at hm
    have hcp := fire_loop_checkpoints _ _ m hm
    rcases mem_range_keys hcp with ⟨kv2, hkv2, hfst, _⟩
    have hnotin := (List.mem_filter.mp hkv2).2
    intro hcon
    rw [← hfst] at hcon
    simp [inRangeB] at hnotin
    omega

/-- Witness for C2: the spec scenario of subscriptions at epochs 3, 4, 5
with no prior firing (`last = 0`) and current epoch 6: the firing's message
list is exactly the drained in-range entries in map order. -/
theorem checkpoint_monitor_catch_up_witness :
    (checkpoint_monitor_fire
      (⟨[(3, [⟨some 30⟩]), (4, [⟨some 40⟩]), (5, [⟨some 50⟩])], none⟩ :
        MonitorState Nat) 6).2 =
      (([(3, [⟨some 30⟩]), (4, [⟨some 40⟩]), (5, [⟨some 50⟩])] :
          List (Nat × List (SingleEpochSubscription Nat))).filter
        (inRangeB 0 6)).flatMap deliveries :=
  (checkpoint_monitor_catch_up
    ⟨[(3, [⟨some 30⟩]), (4, [⟨some 40⟩]), (5, [⟨some 50⟩])], none⟩ 6 7
    (by decide) (by decide) (by decide)).1

/-- C7 counterexample: a subscription for epoch 3 registered while
`last_checked_epoch = Some 5`; at a firing with current epoch 7 the target
epoch 3 has elapsed (`3 ≤ 7`), yet no notification is delivered and the
entry stays in the registry, because `range(5..=7)` does not reach it. -/
theorem monitor_below_last_counterexample :
    (3 : Nat) ≤ 7 ∧
    (checkpoint_monitor_fire (⟨[(3, [⟨some 0⟩])], some 5⟩ : MonitorState Nat) 7).2 =
      [] ∧
    (checkpoint_monitor_fire (⟨[(3, [⟨some 0⟩])], some 5⟩ : MonitorState Nat)
        7).1.subscriptions_epoch = [(3, [⟨some 0⟩])] :=
  ⟨by decide, rfl, rfl⟩

/-- C7 amended: a registered single-epoch subscription is delivered at a
firing only if its target lies in `[last_checked_epoch.unwrap_or(0), c]`:
one whose target is below `last_checked_epoch.unwrap_or(0)` — even though the
target epoch has elapsed — produces no notification at that firing and
remains in the registry. -/
theorem monitor_skips_below_last (st : MonitorState α) (c : Nat)
    (hsorted : st.subscriptions_epoch.Pairwise (fun a b => a.1 < b.1))
    (hlc : st.last_checked_epoch.getD 0 ≤ c)
    (kv : Nat × List (SingleEpochSubscription α))
    (hkv : kv ∈ st.subscriptions_epoch)
    (hbelow : kv.1 < st.last_checked_epoch.getD 0) :
    (∀ m ∈ (checkpoint_monitor_fire st c).2, m.checkpoint ≠ kv.1) ∧
    kv ∈ (checkpoint_monitor_fire st c).1.subscriptions_epoch := by
  constructor
  · intro m hm
    rw [checkpoint_monitor_fire_snd] at hm
    have hcp := fire_loop_checkpoints _ _ m hm
    rcases mem_range_keys hcp with ⟨kv2, _, hfst, hin⟩
    simp [inRangeB] at hin
    intro he
    omega
  · rw [checkpoint_monitor_fire_eq st c hsorted]
    apply List.mem_filter.mpr
    refine ⟨hkv, ?_⟩
    simp [inRangeB]
    omega

/-- Witness for C7 (amended): the epoch-3 subscription with
`last_checked_epoch = Some 5` survives the firing at epoch 7. -/
theorem monitor_skips_below_last_witness :
    ((3 : Nat), [(⟨some 30⟩ : SingleEpochSubscription Nat)]) ∈
      (checkpoint_monitor_fire (⟨[(3, [⟨some 30⟩])], some 5⟩ : MonitorState Nat)
        7).1.subscriptions_epoch :=
  (monitor_skips_below_last ⟨[(3, [⟨some 30⟩])], some 5⟩ 7 (by decide) (by decide)
    (3, [⟨some 30⟩]) (by decide) (by decide)).2

end WitnetEpoch
